import Mathlib

/-!
Verification of the shared-context store of `src/context_server.py`.

The store (`SharedContext` inside `ContextServer`) is embedded shallowly:
Python dynamic values are modelled by the JSON-like type `JValue`, the
ambient wall clock (`datetime.now().isoformat()`) becomes an explicit
timestamp argument, and file IO is abstracted away so that
`export_context` returns the document `json.dump` would write and
`import_context` consumes an already-parsed document. Operations that can
raise return the state after the call together with the raised exception,
because `store_context` mutates the log in place before its merge steps
run and `import_context` leaves the prior state in place when
reconstruction raises.
-/

/-- A Python/JSON value as used for entry payloads, tool outputs and
snapshot documents: strings, integers, booleans, `None`, lists, and
string-keyed dicts (the shapes produced by `json.load` and by the
callers' payload dicts). -/
inductive JValue where
  | str (s : String)
  | num (n : Int)
  | bool (b : Bool)
  | null
  | arr (elems : List JValue)
  | obj (fields : List (String × JValue))

/-- Exception classes the store's code paths can raise. -/
inductive PyErr where
  | typeError
  | valueError
  | attributeError
deriving DecidableEq

/-- Dict lookup (`d.get(k)` / `"k" in d`) on a string-keyed dict,
represented as an association list; parsed JSON dicts and payload dicts
have unique keys, so first-match lookup is exact. -/
def jLookup : List (String × JValue) → String → Option JValue
  | [], _ => none
  | (k, v) :: rest, key => if k = key then some v else jLookup rest key

/-- Python `==` on the hashable values that can become dict keys here
(`True == 1` and `False == 0` hold in Python). -/
def pyKeyEq : JValue → JValue → Bool
  | .str a, .str b => a == b
  | .num a, .num b => a == b
  | .bool a, .num b => (if a then (1 : Int) else 0) == b
  | .num a, .bool b => a == (if b then (1 : Int) else 0)
  | .bool a, .bool b => a == b
  | .null, .null => true
  | _, _ => false

/-- `d[k] = v` on a Python dict: an existing equal key keeps its
position (and its original key object), a new key is appended. -/
def pyInsert : List (JValue × JValue) → JValue → JValue → List (JValue × JValue)
  | [], k, v => [(k, v)]
  | (k0, v0) :: rest, k, v =>
    if pyKeyEq k0 k then (k0, v) :: rest else (k0, v0) :: pyInsert rest k v

/-- The characters of a Python string, as the length-1 strings its
iteration yields. -/
def pyChars (s : String) : List JValue :=
  s.toList.map fun c => JValue.str (String.singleton c)

/-- Whether a value may be used as a dict key (lists and dicts are
unhashable; the remaining `JValue` shapes are hashable). -/
def pyHashable : JValue → Bool
  | .arr _ => false
  | .obj _ => false
  | _ => true

/-- One element of a `dict.update` sequence argument, read as a key/value
pair: Python requires the element to be an iterable of length two — a
2-element list, a 2-character string, or a 2-key dict (iterating a dict
yields its keys) — with a hashable first component. -/
def pyPairOfElem : JValue → Except PyErr (JValue × JValue)
  | .arr [k, v] => if pyHashable k then .ok (k, v) else .error .typeError
  | .arr _ => .error .valueError
  | .str s =>
    match pyChars s with
    | [k, v] => .ok (k, v)
    | _ => .error .valueError
  | .obj kvs =>
    match kvs.map (fun kv => JValue.str kv.1) with
    | [k, v] => .ok (k, v)
    | _ => .error .valueError
  | _ => .error .typeError

/-- The key/value pairs denoted by the argument of `dict.update`: a dict
contributes its own bindings, a list or string is iterated elementwise
(each element read as a pair), and numbers, booleans and `None` are not
iterable (`TypeError`). Whether `update` raises depends only on this
argument, never on the receiving dict. -/
def pyUpdateArgPairs : JValue → Except PyErr (List (JValue × JValue))
  | .obj kvs => .ok (kvs.map fun kv => (JValue.str kv.1, kv.2))
  | .arr elems => elems.mapM pyPairOfElem
  | .str s => (pyChars s).mapM pyPairOfElem
  | _ => .error .typeError

/-- `d.update(x)` on the store's `discovered_info` dict. -/
def pyDictUpdate (d : List (JValue × JValue)) (x : JValue) :
    Except PyErr (List (JValue × JValue)) :=
  (pyUpdateArgPairs x).map fun pairs =>
    pairs.foldl (fun acc kv => pyInsert acc kv.1 kv.2) d

/-- `l.extend(x)`: a list contributes its elements, a string its
characters, a dict its keys; numbers, booleans and `None` are not
iterable (`TypeError`). -/
def pyListExtend (l : List JValue) : JValue → Except PyErr (List JValue)
  | .arr elems => .ok (l ++ elems)
  | .str s => .ok (l ++ pyChars s)
  | .obj kvs => .ok (l ++ kvs.map fun kv => JValue.str kv.1)
  | _ => .error .typeError

/-- `ContextEntry`: one context entry; `content` is the payload dict
(string-keyed per the `Dict[str, Any]` annotation on `store_context`). -/
structure ContextEntry where
  model : String
  timestamp : String
  content : List (String × JValue)

/-- `ContextEntry.to_dict` (`asdict` on the dataclass). -/
def ContextEntry.to_dict (e : ContextEntry) : JValue :=
  .obj [("model", .str e.model), ("timestamp", .str e.timestamp),
        ("content", .obj e.content)]

/-- `SharedContext`: the store's whole state. `discovered_info` may
acquire non-string keys through `dict.update` with a pair sequence, so
its keys are `JValue`s. -/
structure SharedContext where
  conversations : List ContextEntry
  tool_outputs : List JValue
  discovered_info : List (JValue × JValue)

/-- The state a fresh `SharedContext()` starts in. -/
def SharedContext.empty : SharedContext := ⟨[], [], []⟩

/-- How `json.dump` renders a non-string dict key: `str` for ints,
`"true"`/`"false"` for booleans, `"null"` for `None`. Lists and dicts
are unhashable and never occur as keys; the catch-all arm is inert. -/
def jsonKeyString : JValue → String
  | .str s => s
  | .num n => toString n
  | .bool true => "true"
  | .bool false => "false"
  | _ => "null"

/-- `SharedContext.to_dict`: the snapshot document `export_context`
serializes. -/
def SharedContext.to_dict (s : SharedContext) : JValue :=
  .obj [("conversations", .arr (s.conversations.map ContextEntry.to_dict)),
        ("tool_outputs", .arr s.tool_outputs),
        ("discovered_info",
          .obj (s.discovered_info.map fun kv => (jsonKeyString kv.1, kv.2)))]

/-- `export_context` writes `json.dump(self.shared_context.to_dict(), f)`;
the document it produces is the store's `to_dict`. -/
def export_context (s : SharedContext) : JValue := s.to_dict

/-- The `tool_outputs` step of `store_context`: extend the buffer when
the payload has a `tool_outputs` key, keeping the pre-step state when
the extension raises. -/
def storeToolOutputsStep (s : SharedContext) (context : List (String × JValue)) :
    SharedContext × Option PyErr :=
  match jLookup context "tool_outputs" with
  | some tv =>
    match pyListExtend s.tool_outputs tv with
    | .error e => (s, some e)
    | .ok t => ({ s with tool_outputs := t }, none)
  | none => (s, none)

/-- One `store_context(model, context)` call. The timestamp produced by
`datetime.now().isoformat()` during the call is an explicit argument.
The entry is appended to `conversations` before the `discoveries` merge
and the `tool_outputs` extension run, so a raising merge step still
leaves the new entry in the log; the raised exception, if any, is
returned alongside the post-call state. -/
def store_context (s : SharedContext) (model timestamp : String)
    (context : List (String × JValue)) : SharedContext × Option PyErr :=
  let s1 : SharedContext :=
    { s with conversations := s.conversations ++ [⟨model, timestamp, context⟩] }
  match jLookup context "discoveries" with
  | some dv =>
    match pyDictUpdate s1.discovered_info dv with
    | .error e => (s1, some e)
    | .ok d => storeToolOutputsStep { s1 with discovered_info := d } context
  | none => storeToolOutputsStep s1 context

/-- The arguments of one append call (the timestamp stands for the value
the wall clock returned during that call). -/
structure Call where
  model : String
  timestamp : String
  content : List (String × JValue)

/-- Run a sequence of `store_context` calls, threading the state: a call
whose merge step raised has still mutated the store, and later calls
continue from that mutated state. -/
def appendAll (s : SharedContext) (calls : List Call) : SharedContext :=
  calls.foldl (fun st c => (store_context st c.model c.timestamp c.content).1) s

/-- The Python slice `l[-k:]` for an arbitrary integer `k` (the
`max_entries` argument of `get_context`): for `k > 0` the last
`min k (length l)` elements; `-0` is `0`, so `k = 0` keeps all of `l`;
a negative `k` drops the first `-k` elements. -/
def pyTailSlice (l : List α) (k : Int) : List α :=
  if 0 < k then l.drop (l.length - k.toNat) else l.drop (-k).toNat

/-- One record produced by `ContextServer._format_previous_analysis`. -/
structure FormattedEntry where
  model : String
  timestamp : String
  summary : JValue
  findings : JValue
  suggestions : JValue

/-- `_format_previous_analysis` on one entry: `content.get` with the
defaults `""`, `[]`, `[]`. -/
def formatEntry (e : ContextEntry) : FormattedEntry :=
  { model := e.model
    timestamp := e.timestamp
    summary := (jLookup e.content "summary").getD (.str "")
    findings := (jLookup e.content "findings").getD (.arr [])
    suggestions := (jLookup e.content "suggestions").getD (.arr []) }

/-- The list comprehension of `get_context`: the log entries whose
`model` differs from `for_model`, in log order. -/
def otherConversations (s : SharedContext) (for_model : String) : List ContextEntry :=
  s.conversations.filter fun conv => conv.model != for_model

/-- The dict `get_context` returns. `key_findings` is `dict(...)`, a
copy of `discovered_info`: in the pure embedding a copy is the value
itself. -/
structure ContextView where
  previous_analysis : List FormattedEntry
  key_findings : List (JValue × JValue)
  recent_tool_outputs : List JValue

/-- `ContextServer.get_context(for_model, max_entries)`: filter the log
by producer, take the slice `[-max_entries:]` of the filtered list,
format it, and pair it with the discovery map and the last 10 tool
outputs (a fixed bound, independent of `max_entries`). -/
def get_context (s : SharedContext) (for_model : String) (max_entries : Int) :
    ContextView :=
  { previous_analysis :=
      (pyTailSlice (otherConversations s for_model) max_entries).map formatEntry
    key_findings := s.discovered_info
    recent_tool_outputs := pyTailSlice s.tool_outputs 10 }

/-- `clear_context`: replace the state with a fresh `SharedContext()`. -/
def clear_context (_ : SharedContext) : SharedContext := SharedContext.empty

/-- The dict `get_summary` returns; `models_involved` goes through a
Python `set`, modelled as a `Finset`. -/
structure ContextSummary where
  total_conversations : Nat
  models_involved : Finset String
  discoveries_count : Nat
  tool_outputs_count : Nat

/-- `ContextServer.get_summary`. -/
def get_summary (s : SharedContext) : ContextSummary :=
  { total_conversations := s.conversations.length
    models_involved := (s.conversations.map ContextEntry.model).toFinset
    discoveries_count := s.discovered_info.length
    tool_outputs_count := s.tool_outputs.length }

/-- `ContextEntry(**conv)`: `conv` must be a dict binding exactly the
keys `model`, `timestamp` and `content` (a missing or unexpected keyword
raises `TypeError`; parsed JSON dicts have unique keys, so a length of 3
with all three lookups succeeding is exactly that check). The embedding
additionally requires the field values to have the shapes the store
itself serializes — string `model` and `timestamp`, dict `content`;
the untyped Python dataclass would accept other shapes unchecked. -/
def parseEntry : JValue → Except PyErr ContextEntry
  | .obj kvs =>
    if kvs.length = 3 then
      match jLookup kvs "model", jLookup kvs "timestamp", jLookup kvs "content" with
      | some (.str m), some (.str t), some (.obj c) => .ok ⟨m, t, c⟩
      | _, _, _ => .error .typeError
    else .error .typeError
  | _ => .error .typeError

/-- The elementwise reconstruction inside the list comprehension
`[ContextEntry(**conv) for conv in ...]`, raising at the first bad
element. -/
def parseEntryList : List JValue → Except PyErr (List ContextEntry)
  | [] => .ok []
  | v :: vs =>
    match parseEntry v with
    | .error e => .error e
    | .ok entry =>
      match parseEntryList vs with
      | .error e => .error e
      | .ok rest => .ok (entry :: rest)

/-- The comprehension applied to the value found under
`"conversations"`: a list is iterated elementwise; an empty dict or
string iterates to nothing; iterating a non-empty dict or string feeds
`ContextEntry(**...)` a non-dict and raises `TypeError`; numbers,
booleans and `None` are not iterable. -/
def parseConversations : JValue → Except PyErr (List ContextEntry)
  | .arr convs => parseEntryList convs
  | .str s => if s = "" then .ok [] else .error .typeError
  | .obj kvs => if kvs.isEmpty then .ok [] else .error .typeError
  | _ => .error .typeError

/-- `import_context` on an already-parsed document. `data.get` on a
non-dict raises `AttributeError`; on a dict each of the three fields
defaults to an empty container when absent. The replacement
`SharedContext` is fully built before the assignment, so a raising
reconstruction leaves the prior state in place. The embedding requires
the `tool_outputs` value to be a list and the `discovered_info` value a
dict — the shapes `export_context` produces and `json.load` parses;
the untyped Python constructor would accept other shapes unchecked. -/
def import_context (s : SharedContext) (doc : JValue) :
    SharedContext × Option PyErr :=
  match doc with
  | .obj d =>
    match parseConversations ((jLookup d "conversations").getD (.arr [])) with
    | .error e => (s, some e)
    | .ok convs =>
      match (jLookup d "tool_outputs").getD (.arr []),
            (jLookup d "discovered_info").getD (.obj []) with
      | .arr touts, .obj disc =>
        (⟨convs, touts, disc.map fun kv => (JValue.str kv.1, kv.2)⟩, none)
      | _, _ => (s, some .typeError)
  | _ => (s, some .attributeError)

/-- Modelled from the spec for comparison with the code (claim about the
DiscoveryMap invariant): the left-to-right union of the `discoveries`
sub-maps of the appended payloads that contain one, a later append's
keys overwriting an earlier append's identical keys. -/
def specDiscoveryUnion (calls : List Call) : List (JValue × JValue) :=
  calls.foldl
    (fun acc c =>
      match jLookup c.content "discoveries" with
      | some (.obj kvs) => kvs.foldl (fun a kv => pyInsert a (.str kv.1) kv.2) acc
      | _ => acc)
    []

/-- The payload's `discoveries` value, when present, is a dict. -/
def discoveriesIsDict (content : List (String × JValue)) : Bool :=
  match jLookup content "discoveries" with
  | none => true
  | some (.obj _) => true
  | some _ => false

/-- A number, boolean or `None`: the values `dict.update` and
`list.extend` reject with `TypeError` because they are not iterable. -/
def scalarValue : JValue → Bool
  | .num _ => true
  | .bool _ => true
  | .null => true
  | _ => false

/-- `dict.update(v)` does not raise: its argument converts to key/value
pairs (whether `update` raises depends only on the argument, never on
the receiving dict). -/
def updateArgOk (v : JValue) : Bool :=
  match pyUpdateArgPairs v with
  | .ok _ => true
  | .error _ => false

/-- The `discoveries` step of `store_context` succeeds or is skipped:
the key is absent, or its value is accepted by `dict.update`. -/
def discoveriesStepOk (content : List (String × JValue)) : Bool :=
  match jLookup content "discoveries" with
  | none => true
  | some v => updateArgOk v

/-- All keys of a discovery map are strings. -/
def strKeyed (d : List (JValue × JValue)) : Prop :=
  ∀ kv ∈ d, ∃ t, kv.1 = JValue.str t

/-- The field names of a document, in order (empty for a non-dict). -/
def jTopKeys : JValue → List String
  | .obj kvs => kvs.map Prod.fst
  | _ => []

/-- Field access on a document (none for a non-dict or a missing key). -/
def jGetField : JValue → String → Option JValue
  | .obj kvs, key => jLookup kvs key
  | _, _ => none

/-- A concrete populated store used by witnesses: two log entries from
producers `"a"` and `"c"`. -/
def sampleStore : SharedContext :=
  ⟨[⟨"a", "t1", [("summary", .str "s1")]⟩, ⟨"c", "t2", []⟩], [], []⟩

lemma storeToolOutputsStep_conversations (s : SharedContext)
    (c : List (String × JValue)) :
    (storeToolOutputsStep s c).1.conversations = s.conversations := by
  unfold storeToolOutputsStep
  split
  · split <;> rfl
  · rfl

lemma storeToolOutputsStep_discovered (s : SharedContext)
    (c : List (String × JValue)) :
    (storeToolOutputsStep s c).1.discovered_info = s.discovered_info := by
  unfold storeToolOutputsStep
  split
  · split <;> rfl
  · rfl

/-- The new entry is appended to the log no matter how the merge steps
fare. -/
lemma store_context_conversations (s : SharedContext) (m t : String)
    (c : List (String × JValue)) :
    (store_context s m t c).1.conversations
      = s.conversations ++ [⟨m, t, c⟩] := by
  unfold store_context
  dsimp only
  split
  · split
    · rfl
    · rw [storeToolOutputsStep_conversations]
  · rw [storeToolOutputsStep_conversations]

lemma appendAll_conversations (s : SharedContext) (calls : List Call) :
    (appendAll s calls).conversations
      = s.conversations
          ++ calls.map fun c => (⟨c.model, c.timestamp, c.content⟩ : ContextEntry) := by
  induction calls generalizing s with
  | nil => simp [appendAll]
  | cons c rest ih =>
    show (appendAll (store_context s c.model c.timestamp c.content).1 rest).conversations = _
    rw [ih, store_context_conversations]
    simp

/-- The discovery-map step of a `store_context` call whose `discoveries`
value, when present, is a dict. -/
lemma store_context_discovered_of_dict (s : SharedContext) (m t : String)
    (c : List (String × JValue)) (h : discoveriesIsDict c = true) :
    (store_context s m t c).1.discovered_info
      = match jLookup c "discoveries" with
        | some (.obj kvs) =>
            kvs.foldl (fun a kv => pyInsert a (.str kv.1) kv.2) s.discovered_info
        | _ => s.discovered_info := by
  unfold discoveriesIsDict at h
  unfold store_context
  cases hd : jLookup c "discoveries" with
  | none => simp [hd, storeToolOutputsStep_discovered]
  | some dv =>
    rw [hd] at h
    cases dv with
    | obj kvs =>
      have hupd : pyDictUpdate s.discovered_info (.obj kvs)
          = .ok (kvs.foldl (fun a kv => pyInsert a (.str kv.1) kv.2) s.discovered_info) := by
        unfold pyDictUpdate pyUpdateArgPairs
        simp [Except.map, List.foldl_map]
      simp only [hd]
      rw [show ({ s with conversations := s.conversations ++ [⟨m, t, c⟩] } : SharedContext).discovered_info = s.discovered_info from rfl] at hupd ⊢
      rw [hupd]
      rw [storeToolOutputsStep_discovered]
    | str a => simp at h
    | num a => simp at h
    | bool a => simp at h
    | null => simp at h
    | arr a => simp at h

lemma appendAll_discovered_of_dict (s : SharedContext) (calls : List Call)
    (h : ∀ c ∈ calls, discoveriesIsDict c.content = true) :
    (appendAll s calls).discovered_info
      = calls.foldl
          (fun acc c =>
            match jLookup c.content "discoveries" with
            | some (.obj kvs) =>
                kvs.foldl (fun a kv => pyInsert a (.str kv.1) kv.2) acc
            | _ => acc)
          s.discovered_info := by
  induction calls generalizing s with
  | nil => rfl
  | cons c rest ih =>
    show (appendAll (store_context s c.model c.timestamp c.content).1 rest).discovered_info = _
    rw [ih _ fun x hx => h x (List.mem_cons_of_mem _ hx)]
    rw [store_context_discovered_of_dict _ _ _ _ (h c (List.mem_cons_self _ _))]
    rfl

lemma pyInsert_strKeyed (d : List (JValue × JValue)) (k : String) (v : JValue)
    (h : strKeyed d) : strKeyed (pyInsert d (.str k) v) := by
  induction d with
  | nil =>
    intro kv hkv
    simp [pyInsert] at hkv
    exact ⟨k, by rw [hkv]⟩
  | cons kv0 rest ih =>
    intro kv hkv
    unfold pyInsert at hkv
    split at hkv
    · rcases List.mem_cons.1 hkv with h1 | h1
      · obtain ⟨t, ht⟩ := h kv0 (List.mem_cons_self _ _)
        exact ⟨t, by rw [h1]; exact ht⟩
      · exact h kv (List.mem_cons_of_mem _ h1)
    · rcases List.mem_cons.1 hkv with h1 | h1
      · exact h kv (by rw [h1]; exact List.mem_cons_self _ _)
      · exact ih (fun x hx => h x (List.mem_cons_of_mem _ hx)) kv h1

lemma foldl_pyInsert_strKeyed (kvs : List (String × JValue))
    (d : List (JValue × JValue)) (h : strKeyed d) :
    strKeyed (kvs.foldl (fun a kv => pyInsert a (.str kv.1) kv.2) d) := by
  induction kvs generalizing d with
  | nil => exact h
  | cons kv rest ih => exact ih _ (pyInsert_strKeyed _ _ _ h)

lemma appendAll_strKeyed (s : SharedContext) (calls : List Call)
    (hs : strKeyed s.discovered_info)
    (h : ∀ c ∈ calls, discoveriesIsDict c.content = true) :
    strKeyed (appendAll s calls).discovered_info := by
  rw [appendAll_discovered_of_dict s calls h]
  clear h
  induction calls generalizing s with
  | nil => exact hs
  | cons c rest ih =>
    show strKeyed (List.foldl _ (match jLookup c.content "discoveries" with
      | some (.obj kvs) =>
          kvs.foldl (fun a kv => pyInsert a (.str kv.1) kv.2) s.discovered_info
      | _ => s.discovered_info) rest)
    split
    · exact ih { s with discovered_info := _ } (foldl_pyInsert_strKeyed _ _ hs)
    · exact ih s hs

/-- `ContextEntry(**asdict(e))` reconstructs `e` exactly. -/
lemma parseEntry_to_dict (e : ContextEntry) :
    parseEntry (ContextEntry.to_dict e) = .ok e := rfl

lemma parseEntryList_map_to_dict (l : List ContextEntry) :
    parseEntryList (l.map ContextEntry.to_dict) = .ok l := by
  induction l with
  | nil => rfl
  | cons e rest ih => simp [parseEntryList, parseEntry_to_dict, ih]

lemma map_strKey_of_strKeyed (d : List (JValue × JValue)) (h : strKeyed d) :
    d.map (fun kv => (JValue.str (jsonKeyString kv.1), kv.2)) = d := by
  induction d with
  | nil => rfl
  | cons kv rest ih =>
    obtain ⟨t, ht⟩ := h kv (List.mem_cons_self _ _)
    have h2 : (JValue.str (jsonKeyString kv.1), kv.2) = kv := by
      rw [ht, jsonKeyString, ← ht]
    rw [List.map_cons, h2, ih fun x hx => h x (List.mem_cons_of_mem _ hx)]

/-- Importing the document a store exports reproduces that store
exactly, for any prior state, provided the discovery map's keys are
strings (so that `json.dump`'s key rendering is the identity). -/
lemma import_export (s0 s : SharedContext) (h : strKeyed s.discovered_info) :
    import_context s0 (export_context s) = (s, none) := by
  have h1 : import_context s0 (export_context s)
      = match parseEntryList (s.conversations.map ContextEntry.to_dict) with
        | .error e => (s0, some e)
        | .ok convs =>
          (⟨convs, s.tool_outputs,
            (s.discovered_info.map fun kv => (jsonKeyString kv.1, kv.2)).map
              fun kv => (JValue.str kv.1, kv.2)⟩, none) := rfl
  rw [h1, parseEntryList_map_to_dict]
  rw [List.map_map]
  have h2 : s.discovered_info.map
      ((fun kv => (JValue.str kv.1, kv.2)) ∘ fun kv => (jsonKeyString kv.1, kv.2))
      = s.discovered_info := map_strKey_of_strKeyed s.discovered_info h
  rw [h2]

lemma pyTailSlice_subset (l : List α) (k : Int) : pyTailSlice l k ⊆ l := by
  unfold pyTailSlice
  split
  · exact List.drop_subset _ l
  · exact List.drop_subset _ l

lemma pyTailSlice_pos (l : List α) (k : Int) (h : 0 < k) :
    pyTailSlice l k = l.drop (l.length - k.toNat) := by
  unfold pyTailSlice
  exact if_pos h

lemma pyTailSlice_nonpos (l : List α) (k : Int) (h : k ≤ 0) :
    pyTailSlice l k = l.drop (-k).toNat := by
  unfold pyTailSlice
  exact if_neg (by omega)

lemma pyDictUpdate_obj (d : List (JValue × JValue)) (kvs : List (String × JValue)) :
    pyDictUpdate d (.obj kvs)
      = .ok (kvs.foldl (fun a kv => pyInsert a (.str kv.1) kv.2) d) := by
  unfold pyDictUpdate pyUpdateArgPairs
  simp [Except.map, List.foldl_map]

lemma pyDictUpdate_ok_of_pairs (d : List (JValue × JValue)) (v : JValue)
    (pairs : List (JValue × JValue)) (h : pyUpdateArgPairs v = .ok pairs) :
    pyDictUpdate d v
      = .ok (pairs.foldl (fun acc kv => pyInsert acc kv.1 kv.2) d) := by
  unfold pyDictUpdate
  rw [h]
  rfl

lemma pyDictUpdate_err_of_scalar (d : List (JValue × JValue)) (v : JValue)
    (h : scalarValue v = true) : pyDictUpdate d v = .error PyErr.typeError := by
  cases v with
  | num n => rfl
  | bool b => rfl
  | null => rfl
  | str a => exact absurd h (by simp [scalarValue])
  | arr a => exact absurd h (by simp [scalarValue])
  | obj a => exact absurd h (by simp [scalarValue])

lemma storeToolOutputsStep_err_of_scalar (s : SharedContext)
    (c : List (String × JValue)) (w : JValue)
    (hw : jLookup c "tool_outputs" = some w) (hs : scalarValue w = true) :
    (storeToolOutputsStep s c).2 = some PyErr.typeError := by
  unfold storeToolOutputsStep
  rw [hw]
  cases w with
  | num n => rfl
  | bool b => rfl
  | null => rfl
  | str a => exact absurd hs (by simp [scalarValue])
  | arr a => exact absurd hs (by simp [scalarValue])
  | obj a => exact absurd hs (by simp [scalarValue])

/-- C1, counterexample: importing the document `{}` — all three
structural fields absent — into a store holding one entry raises no
error at all and replaces the prior state with the empty state, against
the claim that a `MalformedSnapshot` error is raised and the prior state
is kept. -/
theorem claim1_counterexample :
    (import_context ⟨[⟨"claude", "t1", []⟩], [], []⟩ (JValue.obj [])).2 = none ∧
    (import_context ⟨[⟨"claude", "t1", []⟩], [], []⟩ (JValue.obj [])).1
      = SharedContext.empty ∧
    (⟨[⟨"claude", "t1", []⟩], [], []⟩ : SharedContext) ≠ SharedContext.empty := by
  refine ⟨rfl, rfl, ?_⟩
  intro h
  have h1 : (⟨[⟨"claude", "t1", []⟩], [], []⟩ : SharedContext).conversations.length
      = (SharedContext.empty : SharedContext).conversations.length := by rw [h]
  exact absurd h1 (by decide)

/-- C1, amended: for every prior store state and every imported document
that is a mapping in which the fields `conversations`, `tool_outputs`
and `discovered_info` are all absent, import raises no error: each field
defaults to an empty container, so the call replaces the store's state
with the empty state (the prior state is discarded, not preserved). -/
theorem claim1_amended_theorem (s : SharedContext) (d : List (String × JValue))
    (h1 : jLookup d "conversations" = none)
    (h2 : jLookup d "tool_outputs" = none)
    (h3 : jLookup d "discovered_info" = none) :
    import_context s (JValue.obj d) = (SharedContext.empty, none) := by
  simp [import_context, h1, h2, h3, parseConversations, parseEntryList,
    SharedContext.empty]

/-- C1, witness for the amended theorem at a concrete prior store and
the empty document. -/
theorem claim1_witness :
    jLookup [] "conversations" = none ∧
    import_context sampleStore (JValue.obj []) = (SharedContext.empty, none) :=
  ⟨rfl, claim1_amended_theorem sampleStore [] rfl rfl rfl⟩

/-- C2, counterexample: with one logged entry from producer `"a"`,
`getView("b", 0)` returns that entry — `previous_analysis` is not empty,
because the Python slice `[-0:]` keeps the whole filtered list. -/
theorem claim2_counterexample :
    (get_context ⟨[⟨"a", "t", []⟩], [], []⟩ "b" 0).previous_analysis ≠ [] := by
  intro h
  have h1 : (get_context ⟨[⟨"a", "t", []⟩], [], []⟩ "b" 0).previous_analysis.length
      = 1 := rfl
  rw [h] at h1
  exact absurd h1 (by decide)

/-- C2, amended: for `maxEntries = k ≤ 0`, `previousAnalysis` is the
filtered sequence with its first `-k` elements dropped (`l[-k:]` in
Python): `k = 0` keeps every matching entry, and a negative `k` yields
the empty sequence only when `-k` is at least the number of matching
entries. -/
theorem claim2_amended_theorem (s : SharedContext) (P : String) (k : Int)
    (h : k ≤ 0) :
    (get_context s P k).previous_analysis
      = ((otherConversations s P).drop (-k).toNat).map formatEntry := by
  show (pyTailSlice (otherConversations s P) k).map formatEntry = _
  rw [pyTailSlice_nonpos _ _ h]

/-- C2, witness for the amended theorem at `maxEntries = 0` on a store
with two matching entries. -/
theorem claim2_witness :
    (0 : Int) ≤ 0 ∧
    (get_context sampleStore "b" 0).previous_analysis
      = ((otherConversations sampleStore "b").drop (-(0 : Int)).toNat).map
          formatEntry :=
  ⟨by decide, claim2_amended_theorem sampleStore "b" 0 (by decide)⟩

/-- C3: for `maxEntries = k ≥ 1`, `previousAnalysis` is exactly the last
`min k (count of entries whose producer differs from P)` filtered
entries in log order — the producer filter is applied before the tail
truncation — and has exactly that length. -/
theorem claim3_theorem (s : SharedContext) (P : String) (k : Int) (h : 1 ≤ k) :
    (get_context s P k).previous_analysis
      = ((otherConversations s P).drop
          ((otherConversations s P).length - k.toNat)).map formatEntry ∧
    (get_context s P k).previous_analysis.length
      = min k.toNat (otherConversations s P).length := by
  have e1 : (get_context s P k).previous_analysis
      = (pyTailSlice (otherConversations s P) k).map formatEntry := rfl
  rw [e1, pyTailSlice_pos _ _ (by omega)]
  refine ⟨rfl, ?_⟩
  rw [List.length_map, List.length_drop]
  omega

/-- C3, witness at `k = 1` on a store with two matching entries: the
view keeps only the last one. -/
theorem claim3_witness :
    (1 : Int) ≤ 1 ∧
    ((get_context sampleStore "b" 1).previous_analysis
      = ((otherConversations sampleStore "b").drop
          ((otherConversations sampleStore "b").length - (1 : Int).toNat)).map
          formatEntry ∧
    (get_context sampleStore "b" 1).previous_analysis.length
      = min (1 : Int).toNat (otherConversations sampleStore "b").length) :=
  ⟨by decide, claim3_theorem sampleStore "b" 1 (by decide)⟩

/-- C4, counterexample: an append whose `discoveries` value is the pair
sequence `[[1, 2]]` puts the integer key `1` into the discovery map;
export renders that key as the string `"1"`, so the store obtained by
importing the exported document answers `getView` with different
`keyFindings` than the original — the round trip is not exact. -/
theorem claim4_counterexample :
    (get_context
        (import_context SharedContext.empty
          (export_context (appendAll SharedContext.empty
            [⟨"m", "t", [("discoveries",
              JValue.arr [JValue.arr [JValue.num 1, JValue.num 2]])]⟩]))).1
        "p" 10).key_findings
      ≠ (get_context
          (appendAll SharedContext.empty
            [⟨"m", "t", [("discoveries",
              JValue.arr [JValue.arr [JValue.num 1, JValue.num 2]])]⟩])
          "p" 10).key_findings := by
  intro h
  have h1 : ([(JValue.str "1", JValue.num 2)] : List (JValue × JValue))
      = [(JValue.num 1, JValue.num 2)] := h
  injection h1 with h2 h3
  injection h2 with h4 h5
  exact JValue.noConfusion h4

/-- C4, amended: for every store state reached by a sequence of appends
in which each payload's `discoveries` value, when present, is a
key/value mapping (so that the discovery map only holds string keys),
importing the exported document into a fresh empty store reproduces the
original store exactly, and therefore `summarize()` and `getView(P, k)`
return the same results as on the original for every producer `P` and
every bound `k`. -/
theorem claim4_amended_theorem (calls : List Call)
    (h : calls.all (fun c => discoveriesIsDict c.content) = true) :
    import_context SharedContext.empty
        (export_context (appendAll SharedContext.empty calls))
      = (appendAll SharedContext.empty calls, none) ∧
    get_summary (import_context SharedContext.empty
        (export_context (appendAll SharedContext.empty calls))).1
      = get_summary (appendAll SharedContext.empty calls) ∧
    ∀ (P : String) (k : Int),
      get_context (import_context SharedContext.empty
          (export_context (appendAll SharedContext.empty calls))).1 P k
        = get_context (appendAll SharedContext.empty calls) P k := by
  have hall : ∀ c ∈ calls, discoveriesIsDict c.content = true := by
    intro c hc
    exact List.all_eq_true.mp h c hc
  have hk : strKeyed (appendAll SharedContext.empty calls).discovered_info := by
    refine appendAll_strKeyed _ _ ?_ hall
    intro kv hkv
    exact absurd hkv (List.not_mem_nil _)
  have him := import_export SharedContext.empty _ hk
  exact ⟨him, by rw [him], fun P k => by rw [him]⟩

/-- C4, witness for the amended theorem on a one-append store with a
mapping-shaped discovery. -/
theorem claim4_witness :
    ([⟨"a", "t1", [("discoveries", JValue.obj [("x", JValue.num 1)])]⟩] :
        List Call).all (fun c => discoveriesIsDict c.content) = true ∧
    import_context SharedContext.empty
        (export_context (appendAll SharedContext.empty
          [⟨"a", "t1", [("discoveries", JValue.obj [("x", JValue.num 1)])]⟩]))
      = (appendAll SharedContext.empty
          [⟨"a", "t1", [("discoveries", JValue.obj [("x", JValue.num 1)])]⟩],
         none) :=
  ⟨by decide, (claim4_amended_theorem _ (by decide)).1⟩

/-- C5, counterexample: the conversation records of the exported
document carry the field names `model`, `timestamp` and `content` — not
`producer`, `timestamp` and `payload` as the claim states. -/
theorem claim5_counterexample :
    jGetField (export_context ⟨[⟨"claude", "t1", []⟩], [], []⟩) "conversations"
      = some (JValue.arr [JValue.obj
          [("model", JValue.str "claude"), ("timestamp", JValue.str "t1"),
           ("content", JValue.obj [])]]) ∧
    jTopKeys (JValue.obj
        [("model", JValue.str "claude"), ("timestamp", JValue.str "t1"),
         ("content", JValue.obj [])])
      ≠ ["producer", "timestamp", "payload"] :=
  ⟨rfl, by decide⟩

/-- C5, amended: for every store state, export produces a single
document with exactly the three named fields `conversations`,
`tool_outputs` and `discovered_info`, where `conversations` is an
ordered sequence of records each having the fields `model`, `timestamp`
and `content` (holding the producer identifier, the timestamp and the
payload respectively), `tool_outputs` is an ordered sequence of records,
and `discovered_info` is a string-to-value mapping (non-string discovery
keys are rendered as strings by the JSON serializer). -/
theorem claim5_amended_theorem (s : SharedContext) :
    jTopKeys (export_context s)
      = ["conversations", "tool_outputs", "discovered_info"] ∧
    jGetField (export_context s) "conversations"
      = some (.arr (s.conversations.map ContextEntry.to_dict)) ∧
    (∀ e ∈ s.conversations,
      jTopKeys (ContextEntry.to_dict e) = ["model", "timestamp", "content"]) ∧
    jGetField (export_context s) "tool_outputs" = some (.arr s.tool_outputs) ∧
    jGetField (export_context s) "discovered_info"
      = some (.obj (s.discovered_info.map fun kv => (jsonKeyString kv.1, kv.2))) :=
  ⟨rfl, rfl, fun _ _ => rfl, rfl, rfl⟩

/-- C5, witness for the amended theorem at a concrete store. -/
theorem claim5_witness :
    jTopKeys (export_context sampleStore)
      = ["conversations", "tool_outputs", "discovered_info"] :=
  (claim5_amended_theorem sampleStore).1

/-- C6, counterexample: a payload whose `discoveries` value is the pair
sequence `[["x", 1]]` contains no `discoveries` sub-map, yet
`dict.update` merges the pair, so the DiscoveryMap differs from the
union of the mapping-shaped sub-maps (which is empty here). -/
theorem claim6_counterexample :
    (appendAll SharedContext.empty
        [⟨"m", "t", [("discoveries",
          JValue.arr [JValue.arr [JValue.str "x", JValue.num 1]])]⟩]).discovered_info
      ≠ specDiscoveryUnion
          [⟨"m", "t", [("discoveries",
            JValue.arr [JValue.arr [JValue.str "x", JValue.num 1]])]⟩] := by
  intro h
  have h1 : [(JValue.str "x", JValue.num 1)] = ([] : List (JValue × JValue)) := h
  exact List.noConfusion h1

/-- C6, amended: after every sequence of append calls starting from the
empty store in which each payload's `discoveries` value, when present,
is a key/value mapping, the DiscoveryMap equals the left-to-right union
of those `discoveries` sub-maps, a later append's keys overwriting an
earlier append's identical keys — in particular `{x: 1}` then `{x: 2}`
leaves `keyFindings[x] = 2`. (A pair-sequence `discoveries` value is
also merged by `dict.update`, so the store can then differ from the
union of the mapping-shaped sub-maps.) -/
theorem claim6_amended_theorem (calls : List Call)
    (h : calls.all (fun c => discoveriesIsDict c.content) = true) :
    (appendAll SharedContext.empty calls).discovered_info
      = specDiscoveryUnion calls := by
  have hall : ∀ c ∈ calls, discoveriesIsDict c.content = true := by
    intro c hc
    exact List.all_eq_true.mp h c hc
  rw [appendAll_discovered_of_dict _ _ hall]
  rfl

/-- C6, witness: the overwrite scenario — appending
`{discoveries: {x: 1}}` then `{discoveries: {x: 2}}` leaves the
DiscoveryMap equal to the spec union, and the resulting `keyFindings`
bind `x` to `2`. -/
theorem claim6_witness :
    ([⟨"a", "t1", [("discoveries", JValue.obj [("x", JValue.num 1)])]⟩,
      ⟨"b", "t2", [("discoveries", JValue.obj [("x", JValue.num 2)])]⟩] :
        List Call).all (fun c => discoveriesIsDict c.content) = true ∧
    (appendAll SharedContext.empty
        [⟨"a", "t1", [("discoveries", JValue.obj [("x", JValue.num 1)])]⟩,
         ⟨"b", "t2", [("discoveries", JValue.obj [("x", JValue.num 2)])]⟩]).discovered_info
      = specDiscoveryUnion
          [⟨"a", "t1", [("discoveries", JValue.obj [("x", JValue.num 1)])]⟩,
           ⟨"b", "t2", [("discoveries", JValue.obj [("x", JValue.num 2)])]⟩] ∧
    (get_context
        (appendAll SharedContext.empty
          [⟨"a", "t1", [("discoveries", JValue.obj [("x", JValue.num 1)])]⟩,
           ⟨"b", "t2", [("discoveries", JValue.obj [("x", JValue.num 2)])]⟩])
        "viewer" 10).key_findings
      = [(JValue.str "x", JValue.num 2)] :=
  ⟨by decide, claim6_amended_theorem _ (by decide), rfl⟩

/-- C7: no element of `getView(P, k).previousAnalysis` has a producer
equal to `P` (exact string comparison), for every store state, consumer
string and bound. -/
theorem claim7_theorem (s : SharedContext) (P : String) (k : Int)
    (e : FormattedEntry) (h : e ∈ (get_context s P k).previous_analysis) :
    e.model ≠ P := by
  have h1 : e ∈ (pyTailSlice (otherConversations s P) k).map formatEntry := h
  obtain ⟨c, hc, he⟩ := List.mem_map.1 h1
  have hc2 : c ∈ otherConversations s P := pyTailSlice_subset _ _ hc
  have hc3 := List.mem_filter.1 hc2
  have hne : (c.model != P) = true := hc3.2
  rw [← he]
  show c.model ≠ P
  simpa using hne

/-- C7, witness: the entry from producer `"a"` appearing in the view for
consumer `"b"` has a producer different from `"b"`. -/
theorem claim7_witness :
    (formatEntry ⟨"a", "t1", [("summary", JValue.str "s1")]⟩).model ≠ "b" :=
  claim7_theorem sampleStore "b" 10 _
    (List.mem_cons_self
      (formatEntry ⟨"a", "t1", [("summary", JValue.str "s1")]⟩)
      [formatEntry ⟨"c", "t2", []⟩])

/-- C8: after any sequence of `N` append calls starting from the empty
store, the log is exactly the calls' entries in call order — length `N`,
the i-th entry built from the i-th call — whatever timestamps the calls
carried (the log is never reordered by timestamps, and even a call whose
merge step raised has appended its entry). -/
theorem claim8_theorem (calls : List Call) :
    (appendAll SharedContext.empty calls).conversations
      = calls.map (fun c => (⟨c.model, c.timestamp, c.content⟩ : ContextEntry)) ∧
    (appendAll SharedContext.empty calls).conversations.length = calls.length := by
  have h := appendAll_conversations SharedContext.empty calls
  have h0 : (appendAll SharedContext.empty calls).conversations
      = calls.map fun c => (⟨c.model, c.timestamp, c.content⟩ : ContextEntry) := by
    rw [h]
    rfl
  exact ⟨h0, by rw [h0, List.length_map]⟩

/-- C9, counterexample: a payload whose `discoveries` value is the empty
sequence `[]` — present and not a key/value mapping — raises no
exception at all: `dict.update([])` succeeds, against the claim that any
present non-mapping `discoveries` value makes the merge step raise. -/
theorem claim9_counterexample :
    (store_context SharedContext.empty "m" "t"
        [("discoveries", JValue.arr [])]).2 = none ∧
    (store_context SharedContext.empty "m" "t"
        [("discoveries", JValue.arr [])]).1.conversations
      = [⟨"m", "t", [("discoveries", JValue.arr [])]⟩] :=
  ⟨rfl, rfl⟩

/-- C9, amended: if append is called with a payload whose `discoveries`
value is a number, boolean or `None` (not iterable as key/value pairs —
other non-mapping shapes such as an empty sequence or a sequence of
pairs are accepted by `dict.update`), or whose `discoveries` step
succeeds or is skipped while its `tool_outputs` value is a number,
boolean or `None` (not iterable), then the call raises after the new
entry has already been appended to the log, so the store is left changed
on failure: append is not all-or-nothing on this error path. -/
theorem claim9_amended_theorem (s : SharedContext) (m t : String)
    (content : List (String × JValue))
    (h : (∃ v, jLookup content "discoveries" = some v ∧ scalarValue v = true)
       ∨ (discoveriesStepOk content = true
          ∧ ∃ w, jLookup content "tool_outputs" = some w ∧ scalarValue w = true)) :
    (store_context s m t content).2.isSome = true ∧
    (store_context s m t content).1.conversations
      = s.conversations ++ [⟨m, t, content⟩] := by
  refine ⟨?_, store_context_conversations s m t content⟩
  cases h with
  | inl h =>
    obtain ⟨v, hv, hscal⟩ := h
    unfold store_context
    dsimp only
    rw [hv]
    dsimp only
    rw [pyDictUpdate_err_of_scalar _ _ hscal]
    rfl
  | inr h =>
    obtain ⟨hok, w, hw, hscal⟩ := h
    unfold discoveriesStepOk at hok
    unfold store_context
    dsimp only
    cases hd : jLookup content "discoveries" with
    | none =>
      rw [storeToolOutputsStep_err_of_scalar _ _ _ hw hscal]
      rfl
    | some dv =>
      rw [hd] at hok
      dsimp only at hok
      cases hp : pyUpdateArgPairs dv with
      | error e =>
        unfold updateArgOk at hok
        rw [hp] at hok
        simp at hok
      | ok pairs =>
        dsimp only
        rw [pyDictUpdate_ok_of_pairs _ _ _ hp]
        dsimp only
        rw [storeToolOutputsStep_err_of_scalar _ _ _ hw hscal]
        rfl

/-- C9, witness for the amended theorem at an input the original claim's
premise also covers: `discoveries` bound to the empty sequence `[]` is
accepted by `dict.update`, and the scalar `tool_outputs` value `5` then
raises after the entry is appended. -/
theorem claim9_witness :
    ((∃ v, jLookup [("discoveries", JValue.arr []), ("tool_outputs", JValue.num 5)]
          "discoveries" = some v ∧ scalarValue v = true)
      ∨ (discoveriesStepOk
            [("discoveries", JValue.arr []), ("tool_outputs", JValue.num 5)] = true
         ∧ ∃ w, jLookup [("discoveries", JValue.arr []), ("tool_outputs", JValue.num 5)]
               "tool_outputs" = some w ∧ scalarValue w = true)) ∧
    (store_context SharedContext.empty "m" "t"
        [("discoveries", JValue.arr []), ("tool_outputs", JValue.num 5)]).2.isSome
      = true ∧
    (store_context SharedContext.empty "m" "t"
        [("discoveries", JValue.arr []), ("tool_outputs", JValue.num 5)]).1.conversations
      = SharedContext.empty.conversations
          ++ [⟨"m", "t", [("discoveries", JValue.arr []), ("tool_outputs", JValue.num 5)]⟩] :=
  ⟨Or.inr ⟨rfl, JValue.num 5, rfl, rfl⟩,
   claim9_amended_theorem SharedContext.empty "m" "t"
     [("discoveries", JValue.arr []), ("tool_outputs", JValue.num 5)]
     (Or.inr ⟨rfl, JValue.num 5, rfl, rfl⟩)⟩
